import Mathlib

/- Verification of the ALDOT_Traffic analytics core. The definitions below are
   a shallow embedding of the Python source: app/config.py (constants),
   app/calculations.py (danger scoring, clearance averaging, work-zone
   correlation, spatial clustering), database.py (upsert and filtered query
   over the incident store), analysis.py (metric haversine) and data/api.py
   (ingestion coordinate filtering). Machine floats are modelled by ℚ where
   the code only compares and averages, and by ℝ where it is transcendental
   (haversine). Theorems checking the specification's claims follow the
   definitions. -/

/-- Scoring weights from app/config.py: SEVERITY_WEIGHTS = {"Major": 3, "Moderate": 2, "Minor": 1},
iterated in insertion order by calculate_danger_score. -/
def SEVERITY_WEIGHTS : List (String × Nat) := [("Major", 3), ("Moderate", 2), ("Minor", 1)]

/-- Clearance lower bound from app/config.py: MIN_CLEARANCE_MINUTES = 1. -/
def MIN_CLEARANCE_MINUTES : ℚ := 1

/-- Clearance upper bound from app/config.py: MAX_CLEARANCE_MINUTES = 1440. -/
def MAX_CLEARANCE_MINUTES : ℚ := 1440

/-- Minimum cluster size from app/config.py: MIN_CLUSTER_SIZE = 3. -/
def MIN_CLUSTER_SIZE : Nat := 3

/-- Embedding of calculate_danger_score (app/calculations.py lines 31-36):
score starts at 0 and, for each (severity, weight) pair of SEVERITY_WEIGHTS in
order, adds (series == severity).sum() * weight. -/
def calculate_danger_score (severity_series : List String) : Nat :=
  SEVERITY_WEIGHTS.foldl
    (fun score sw => score + severity_series.countP (fun s => decide (s = sw.1)) * sw.2) 0

/-- One incident row as seen by the clearance estimator: optional start and end
timestamps, in minutes (pandas converts to datetimes and the code divides the
second difference by 60; the unit choice is irrelevant to the bounds logic). -/
def rowDuration : Option ℚ × Option ℚ → Option ℚ
  | (some s, some e) => some (e - s)
  | (some _, none) => none
  | (none, some _) => none
  | (none, none) => none

/-- The list of end-minus-start durations of the rows carrying both timestamps
(dropna(subset=["Start Time", "End Time"]) followed by the subtraction). -/
def durationsOf (rows : List (Option ℚ × Option ℚ)) : List ℚ :=
  rows.filterMap rowDuration

/-- The durations surviving the strict bounds filter
(durations > MIN_CLEARANCE_MINUTES) & (durations < MAX_CLEARANCE_MINUTES). -/
def validDurations (rows : List (Option ℚ × Option ℚ)) : List ℚ :=
  (durationsOf rows).filter
    (fun d => decide (MIN_CLEARANCE_MINUTES < d) && decide (d < MAX_CLEARANCE_MINUTES))

/-- Embedding of calculate_avg_clearance_minutes (app/calculations.py lines
39-61): None when the frame is empty, when no row has both timestamps, or when
every duration is filtered out by the bounds; otherwise the mean of the
surviving durations. -/
def calculate_avg_clearance_minutes (rows : List (Option ℚ × Option ℚ)) : Option ℚ :=
  if rows = [] then none
  else if durationsOf rows = [] then none
  else if validDurations rows = [] then none
  else some ((validDurations rows).sum / ((validDurations rows).length : ℚ))

/-- Fixture for the clearance witness: three rows with durations 5, 10 and 1500
minutes. -/
def clearanceExampleRows : List (Option ℚ × Option ℚ) :=
  [(some 0, some 5), (some 0, some 10), (some 0, some 1500)]

/-- One record as seen by the work-zone correlation
(calculate_construction_zone_crashes): Road, County and Mile Marker, each
possibly missing (pandas NaN). -/
structure CorrelationRecord where
  road : Option String
  county : Option String
  mile_marker : Option ℚ
deriving DecidableEq

/-- Appending one anchor under its (road, county) key, preserving first-seen
key order and per-key insertion order, as the dict building loop does
(app/calculations.py lines 91-100). -/
def addAnchor : List ((String × String) × List (Option ℚ)) → String × String → Option ℚ →
    List ((String × String) × List (Option ℚ))
  | [], k, m => [(k, [m])]
  | (k', ms) :: rest, k, m =>
    if k' = k then (k', ms ++ [m]) :: rest else (k', ms) :: addAnchor rest k m

/-- The roadwork_by_location index: roadwork rows with both road and county
present are folded into the keyed anchor lists; rows missing either are
skipped. -/
def roadworkIndex (roadwork : List CorrelationRecord) :
    List ((String × String) × List (Option ℚ)) :=
  roadwork.foldl
    (fun idx rw =>
      match rw.road, rw.county with
      | some r, some c => addAnchor idx (r, c) rw.mile_marker
      | some _, none => idx
      | none, some _ => idx
      | none, none => idx)
    []

/-- Key lookup in the index (Python `key in roadwork_by_location` plus
`roadwork_by_location[key]`). -/
def lookupKey : List ((String × String) × List (Option ℚ)) → String × String →
    Option (List (Option ℚ))
  | [], _ => none
  | (k', ms) :: rest, k => if k' = k then some ms else lookupKey rest k

/-- The anchor scan for a crash that carries a mile marker
(app/calculations.py lines 115-122). Anchors without a marker are skipped; an
anchor whose marker is within 2 miles contributes 1 and breaks. The `[] => 1`
case embeds the Python `for ... else`: the `else: construction_crashes += 1`
branch runs whenever the loop finishes WITHOUT break, so a crash whose scan
exhausts the anchors also contributes 1. -/
def scanAnchors (crash_mm : ℚ) : List (Option ℚ) → Nat
  | [] => 1
  | none :: rest => scanAnchors crash_mm rest
  | some rw_mm :: rest =>
    if |crash_mm - rw_mm| ≤ 2 then 1 else scanAnchors crash_mm rest

/-- Contribution of one crash row to the construction-zone count
(app/calculations.py lines 102-124): 0 when road or county is missing or the
key has no roadwork; otherwise scanAnchors when the crash has a marker, else 1. -/
def crashContribution (idx : List ((String × String) × List (Option ℚ)))
    (crash : CorrelationRecord) : Nat :=
  match crash.road, crash.county with
  | some r, some c =>
    (match lookupKey idx (r, c) with
     | none => 0
     | some anchors =>
       match crash.mile_marker with
       | some cmm => scanAnchors cmm anchors
       | none => 1)
  | some _, none => 0
  | none, some _ => 0
  | none, none => 0

/-- Embedding of calculate_construction_zone_crashes (app/calculations.py
lines 74-126): 0 on an empty frame, otherwise the sum of per-crash
contributions against the roadwork index. -/
def calculate_construction_zone_crashes
    (crashes roadwork : List CorrelationRecord) : Nat :=
  if roadwork = [] ∨ crashes = [] then 0
  else crashes.foldl (fun acc cr => acc + crashContribution (roadworkIndex roadwork) cr) 0

/-- The spec's own example crash: road US-80, county Dallas, marker 10. -/
def czCrash : CorrelationRecord := ⟨some "US-80", some "Dallas", some 10⟩

/-- Roadwork on the same road and county but at marker 20 — farther than the
2-mile tolerance from the crash. -/
def czFarRoadwork : CorrelationRecord := ⟨some "US-80", some "Dallas", some 20⟩

/-- Start location of an upstream API event: latitude and longitude, possibly
missing in the JSON. -/
structure ApiLocation where
  latitude : Option ℚ
  longitude : Option ℚ
deriving DecidableEq

/-- An upstream API event, reduced to the field the ingestion filter reads:
`startLocation`, possibly absent. -/
structure ApiEvent where
  startLocation : Option ApiLocation
deriving DecidableEq

/-- Python `start_loc = event.get("startLocation") or {}` followed by
`.get("latitude")` / `.get("longitude")`: an absent location yields absent
coordinates. -/
def locGet (e : ApiEvent) : ApiLocation :=
  match e.startLocation with
  | some l => l
  | none => ⟨none, none⟩

/-- Python truthiness of an optional number: None, 0 and 0.0 are all falsy
(`if not lat or not lon: continue`, data/api.py lines 75-78). -/
def pyTruthyNum : Option ℚ → Bool
  | none => false
  | some x => decide (x ≠ 0)

/-- An event survives the ingestion guard iff both coordinates are truthy. -/
def apiKeeps (e : ApiEvent) : Bool :=
  pyTruthyNum (locGet e).latitude && pyTruthyNum (locGet e).longitude

/-- Embedding of the record-dropping portion of get_api_response
(data/api.py lines 70-113): events failing the coordinate truthiness guard
are skipped and never reach the upsert batch. -/
def get_api_response (events : List ApiEvent) : List ApiEvent :=
  events.filter apiKeeps

/-- Upstream record at exactly (0, 0). -/
def apiZeroZero : ApiEvent := ⟨some ⟨some 0, some 0⟩⟩

/-- Upstream record on the equator (latitude exactly 0, longitude nonzero). -/
def apiEquator : ApiEvent := ⟨some ⟨some 0, some 5⟩⟩

/-- Upstream record with ordinary nonzero coordinates. -/
def apiKept : ApiEvent := ⟨some ⟨some 32, some (-86)⟩⟩

/-- Degrees to radians (np.radians). -/
noncomputable def radians (x : ℝ) : ℝ := x * Real.pi / 180

/-- Embedding of haversine_distance (app/calculations.py lines 20-28), argument
order (lat1, lon1, lat2, lon2), Earth radius 3959 miles, over exact reals. -/
noncomputable def haversine_distance (lat1 lon1 lat2 lon2 : ℝ) : ℝ :=
  let R : ℝ := 3959
  let dlat := radians lat2 - radians lat1
  let dlon := radians lon2 - radians lon1
  let a := Real.sin (dlat / 2) ^ 2
    + Real.cos (radians lat1) * Real.cos (radians lat2) * Real.sin (dlon / 2) ^ 2
  let c := 2 * Real.arcsin (Real.sqrt a)
  R * c

/-- Embedding of haversine (analysis.py lines 5-21), argument order
(lon1, lat1, lon2, lat2), Earth radius 6371000 meters, over exact reals. -/
noncomputable def haversine (lon1 lat1 lon2 lat2 : ℝ) : ℝ :=
  let longitude_distance := radians lon2 - radians lon1
  let latitude_distance := radians lat2 - radians lat1
  let a := Real.sin (latitude_distance / 2) ^ 2
    + Real.cos (radians lat1) * Real.cos (radians lat2)
      * Real.sin (longitude_distance / 2) ^ 2
  let c := 2 * Real.arcsin (Real.sqrt a)
  let r : ℝ := 6371000
  c * r

/-- A stored timestamp at the granularity the store distinguishes: the calendar
day (as produced by SQLite date()) and the time within the day in seconds.
ORDER BY start_time compares the full pair; the date-range filters compare only
the day. -/
structure Ts where
  day : ℤ
  sec : ℤ
deriving DecidableEq

/-- Full-timestamp order used by ORDER BY start_time. -/
def tsLe (a b : Ts) : Bool :=
  decide (a.day < b.day) || (decide (a.day = b.day) && decide (a.sec ≤ b.sec))

/-- One row of the traffic_events table (database.py lines 37-66), with the
column list of upsert_events and query_events; nullable columns are Options,
start_time is NOT NULL. -/
structure EventRow where
  event_id : ℤ
  category : Option String
  title : Option String
  location : Option String
  full_location : Option String
  description : Option String
  region : Option String
  severity : Option String
  county : Option String
  city : Option String
  road : Option String
  road_display : Option String
  road_type : Option String
  cross_street : Option String
  direction : Option String
  mile_marker : Option ℚ
  start_time : Ts
  end_time : Option Ts
  last_updated : Option Ts
  active : Option ℤ
  start_latitude : Option ℚ
  start_longitude : Option ℚ
  end_latitude : Option ℚ
  end_longitude : Option ℚ
  lane_closures : Option String
deriving DecidableEq

/-- The optional filters of query_events (database.py lines 121-127). -/
structure EventQuery where
  start_date : Option Ts
  end_date : Option Ts
  counties : Option (List String)
  categories : Option (List String)
  severities : Option (List String)
  active_only : Bool

/-- Python `if start_date:` plus SQL `date(start_time) >= date(?)`. -/
def startDateGuard (o : Option Ts) (r : EventRow) : Bool :=
  match o with
  | none => true
  | some d => decide (d.day ≤ r.start_time.day)

/-- Python `if end_date:` plus SQL `date(start_time) <= date(?)`. -/
def endDateGuard (o : Option Ts) (r : EventRow) : Bool :=
  match o with
  | none => true
  | some d => decide (r.start_time.day ≤ d.day)

/-- Python `if values and "All" not in values:` plus SQL `column IN (...)`; a
NULL column is never IN any list. -/
def memberFilter (f : Option (List String)) (v : Option String) : Bool :=
  match f with
  | none => true
  | some vs =>
    if vs = [] ∨ "All" ∈ vs then true
    else
      match v with
      | some s => decide (s ∈ vs)
      | none => false

/-- Python `if active_only:` plus SQL `active = 1`; a NULL active never
matches. -/
def activeGuard (b : Bool) (v : Option ℤ) : Bool :=
  if b then
    match v with
    | some a => decide (a = 1)
    | none => false
  else true

/-- The WHERE clause of query_events (database.py lines 133-162): the two
unconditional coordinate NOT NULL conditions and the six optional filters,
conjoined. -/
def matchesFilters (q : EventQuery) (r : EventRow) : Bool :=
  r.start_latitude.isSome && r.start_longitude.isSome
    && startDateGuard q.start_date r
    && endDateGuard q.end_date r
    && memberFilter q.counties r.county
    && memberFilter q.categories r.category
    && memberFilter q.severities r.severity
    && activeGuard q.active_only r.active

/-- Sort relation of ORDER BY start_time DESC: a comes no later than b when
b's timestamp is at most a's. -/
def rowAfter (a b : EventRow) : Prop := tsLe b.start_time a.start_time = true

instance instDecRowAfter : DecidableRel rowAfter :=
  fun a b => instDecidableEqBool (tsLe b.start_time a.start_time) true

/-- Embedding of query_events (database.py lines 121-199): the stored rows
satisfying the WHERE clause, ordered by start time descending. -/
def query_events (db : List EventRow) (q : EventQuery) : List EventRow :=
  List.insertionSort rowAfter (db.filter (matchesFilters q))

/-- One INSERT OR REPLACE: SQLite deletes any row conflicting on the
event_id primary key, then inserts the new row. -/
def upsertOne (db : List EventRow) (r : EventRow) : List EventRow :=
  db.filter (fun x => decide (x.event_id ≠ r.event_id)) ++ [r]

/-- Embedding of upsert_events (database.py lines 95-118): an empty batch
returns 0 before touching the store; otherwise every record is INSERT OR
REPLACEd in order and the executemany rowcount (one per record) is returned. -/
def upsert_events (db : List EventRow) (events : List EventRow) : List EventRow × Nat :=
  if events = [] then (db, 0)
  else (events.foldl upsertOne db, events.length)

/-- Fixture timestamp. -/
def tsA : Ts := ⟨739250, 3600⟩

/-- Fixture row: a Major crash in Jefferson county with coordinates. -/
def rowA : EventRow :=
  { event_id := 1, category := some "Crash", title := some "I-65 crash",
    location := none, full_location := none, description := none,
    region := none, severity := some "Major", county := some "Jefferson",
    city := none, road := some "I-65", road_display := none, road_type := none,
    cross_street := none, direction := none, mile_marker := some 250,
    start_time := tsA, end_time := none, last_updated := none,
    active := some 1, start_latitude := some 33, start_longitude := some (-86),
    end_latitude := none, end_longitude := none, lane_closures := none }

/-- Fixture row failing the severity filter. -/
def rowB : EventRow :=
  { rowA with event_id := 2, severity := some "Minor", start_time := ⟨739251, 0⟩ }

/-- The fixture row re-ingested with a changed severity (same identity). -/
def rowA2 : EventRow := { rowA with severity := some "Moderate" }

/-- A query with every filter omitted. -/
def queryAll : EventQuery := ⟨none, none, none, none, none, false⟩

/-- A query filtering on county {Jefferson} and severity {Major}. -/
def queryCS : EventQuery := ⟨none, none, some ["Jefferson"], none, some ["Major"], false⟩

/-- The inner absorption scan of find_crash_clusters (app/calculations.py
lines 160-168): walk the candidate indices after the seed i in order; skip any
already assigned; when the candidate is near the seed, append it to the
cluster points and mark it assigned before continuing. Returns the absorbed
indices in order and the final assigned set. -/
def scanAbsorb (near : Nat → Nat → Bool) (i : Nat) :
    List Nat → Finset Nat → List Nat × Finset Nat
  | [], asg => ([], asg)
  | j :: rest, asg =>
    if j ∈ asg then scanAbsorb near i rest asg
    else if near i j then
      (j :: (scanAbsorb near i rest (insert j asg)).1,
        (scanAbsorb near i rest (insert j asg)).2)
    else scanAbsorb near i rest asg

/-- The outer loop of find_crash_clusters (app/calculations.py lines 153-175):
iterate indices in order; skip assigned ones; an unassigned index i seeds a
group, is marked assigned, absorbs later unassigned indices near it
(range(i+1, n)), and the group is recorded with its committed flag
len(cluster_points) >= MIN_CLUSTER_SIZE. Entries are (committed, seed,
absorbed); committed groups receive cluster ids 0, 1, ... in trace order. -/
def clusterLoop (near : Nat → Nat → Bool) (minSize n : Nat) :
    List Nat → Finset Nat → List (Bool × Nat × List Nat)
  | [], _ => []
  | i :: rest, asg =>
    if i ∈ asg then clusterLoop near minSize n rest asg
    else
      let s := scanAbsorb near i (List.range' (i + 1) (n - (i + 1))) (insert i asg)
      (decide (minSize ≤ (i :: s.1).length), i, s.1) :: clusterLoop near minSize n rest s.2

/-- The full grouping trace of find_crash_clusters over indices 0..n-1,
including groups that fail the minimum size (their members stay assigned). -/
def clusterTrace (near : Nat → Nat → Bool) (minSize n : Nat) :
    List (Bool × Nat × List Nat) :=
  clusterLoop near minSize n (List.range n) ∅

/-- Default clustering radius from app/config.py:
DEFAULT_CLUSTER_RADIUS_MILES = 0.5. -/
noncomputable def DEFAULT_CLUSTER_RADIUS_MILES : ℝ := 0.5

/-- The proximity test of the clustering loop: haversine_distance between the
stored coordinates of indices i and j is at most the radius. -/
noncomputable def havNear (coords : List (ℝ × ℝ)) (radius_miles : ℝ) (i j : Nat) : Bool :=
  decide (haversine_distance (coords.getD i (0, 0)).1 (coords.getD i (0, 0)).2
    (coords.getD j (0, 0)).1 (coords.getD j (0, 0)).2 ≤ radius_miles)

/-- Embedding of find_crash_clusters (app/calculations.py lines 129-203) up to
cluster membership: the committed groups, paired with their cluster ids in
commit order (the per-cluster stats aggregation and count-descending n sort are
not covered by the membership claims). -/
noncomputable def find_crash_clusters (coords : List (ℝ × ℝ)) (radius_miles : ℝ) :
    List (Nat × List Nat) :=
  (((clusterTrace (havNear coords radius_miles) MIN_CLUSTER_SIZE coords.length).filter
    (fun g => g.1)).enum).map (fun p => (p.1, p.2.2.1 :: p.2.2.2))

/-- Claim C4: for every series of severity values, calculate_danger_score
returns 3*count(Major) + 2*count(Moderate) + 1*count(Minor); severities outside
this set contribute zero (the formula mentions only the three counts); the
score of the empty series is 0; and the score is monotonically non-decreasing
in each of the three counts. -/
theorem danger_score_weighted_sum :
    (∀ l : List String,
      calculate_danger_score l =
        3 * l.countP (fun s => decide (s = "Major"))
          + 2 * l.countP (fun s => decide (s = "Moderate"))
          + l.countP (fun s => decide (s = "Minor")))
    ∧ calculate_danger_score [] = 0
    ∧ ∀ l l' : List String,
        l.countP (fun s => decide (s = "Major")) ≤ l'.countP (fun s => decide (s = "Major")) →
        l.countP (fun s => decide (s = "Moderate")) ≤ l'.countP (fun s => decide (s = "Moderate")) →
        l.countP (fun s => decide (s = "Minor")) ≤ l'.countP (fun s => decide (s = "Minor")) →
        calculate_danger_score l ≤ calculate_danger_score l' := by
  have hform : ∀ l : List String,
      calculate_danger_score l =
        3 * l.countP (fun s => decide (s = "Major"))
          + 2 * l.countP (fun s => decide (s = "Moderate"))
          + l.countP (fun s => decide (s = "Minor")) := by
    intro l
    simp only [calculate_danger_score, SEVERITY_WEIGHTS, List.foldl]
    ring
  refine ⟨hform, by simp [hform], ?_⟩
  intro l l' h1 h2 h3
  rw [hform, hform]
  omega

/-- Witness for claim C4: a severity outside the weighted set ("Severe")
contributes zero (score of [Major, Moderate, Severe] is 5), and adding a Major
does not decrease the score. -/
theorem danger_score_weighted_sum_witness :
    calculate_danger_score ["Major", "Moderate", "Severe"] = 5
      ∧ calculate_danger_score ["Minor"] ≤ calculate_danger_score ["Major", "Minor"] := by
  refine ⟨?_, danger_score_weighted_sum.2.2 ["Minor"] ["Major", "Minor"]
    (by decide) (by decide) (by decide)⟩
  rw [danger_score_weighted_sum.1]
  decide

/-- Claim C3: calculate_avg_clearance_minutes returns None exactly when the
input is empty, no row has both timestamps, or every computed duration falls
outside the strict (1, 1440) bounds; when it returns a number, that number is
the arithmetic mean of the surviving durations and is never zero. -/
theorem avg_clearance_characterization :
    ∀ rows : List (Option ℚ × Option ℚ),
      (calculate_avg_clearance_minutes rows = none ↔
        rows = []
          ∨ (∀ r ∈ rows, rowDuration r = none)
          ∨ (∀ d ∈ durationsOf rows, d ≤ MIN_CLEARANCE_MINUTES ∨ MAX_CLEARANCE_MINUTES ≤ d))
      ∧ ∀ m : ℚ, calculate_avg_clearance_minutes rows = some m →
          m = (validDurations rows).sum / ((validDurations rows).length : ℚ) ∧ m ≠ 0 := by
  intro rows
  have hdur : durationsOf rows = [] ↔ ∀ r ∈ rows, rowDuration r = none := by
    simp only [durationsOf, List.filterMap_eq_nil_iff]
  have hvalid : validDurations rows = [] ↔
      ∀ d ∈ durationsOf rows, d ≤ MIN_CLEARANCE_MINUTES ∨ MAX_CLEARANCE_MINUTES ≤ d := by
    simp only [validDurations, List.filter_eq_nil_iff, Bool.and_eq_true, decide_eq_true_eq,
      not_and, not_lt]
    constructor
    · intro h d hd
      by_cases hlt : MIN_CLEARANCE_MINUTES < d
      · exact Or.inr (h d hd hlt)
      · exact Or.inl (le_of_not_lt hlt)
    · intro h d hd hlt
      rcases h d hd with h1 | h2
      · exact absurd hlt (not_lt.mpr h1)
      · exact h2
  have key : calculate_avg_clearance_minutes rows = none ↔
      (rows = [] ∨ durationsOf rows = [] ∨ validDurations rows = []) := by
    unfold calculate_avg_clearance_minutes
    split_ifs with h1 h2 h3 <;> simp_all
  refine ⟨key.trans (or_congr Iff.rfl (or_congr hdur hvalid)), ?_⟩
  intro m hm
  unfold calculate_avg_clearance_minutes at hm
  by_cases h1 : rows = []
  · simp [h1] at hm
  · by_cases h2 : durationsOf rows = []
    · simp [h1, h2] at hm
    · by_cases h3 : validDurations rows = []
      · simp [h1, h2, h3] at hm
      · simp only [if_neg h1, if_neg h2, if_neg h3, Option.some_inj] at hm
        have hpos : 0 < (validDurations rows).sum := by
          apply List.sum_pos
          · intro d hd
            have hd' := hd
            simp only [validDurations, List.mem_filter, Bool.and_eq_true,
              decide_eq_true_eq] at hd'
            have hmin : MIN_CLEARANCE_MINUTES < d := hd'.2.1
            have h01 : (0 : ℚ) < MIN_CLEARANCE_MINUTES := by
              unfold MIN_CLEARANCE_MINUTES
              norm_num
            linarith
          · exact h3
        have hlen : 0 < ((validDurations rows).length : ℚ) := by
          have hne : validDurations rows ≠ [] := h3
          have hl : 0 < (validDurations rows).length := List.length_pos.mpr hne
          exact_mod_cast hl
        refine ⟨hm.symm, ?_⟩
        rw [← hm]
        exact ne_of_gt (div_pos hpos hlen)

/-- Witness for claim C3: durations {5, 10, 1500} average to 7.5 (as the spec's
example states: 1500 is excluded by the 1440 bound), and the theorem applied to
that input certifies the mean formula and its non-nullity. -/
theorem avg_clearance_characterization_witness :
    calculate_avg_clearance_minutes clearanceExampleRows = some ((15 : ℚ) / 2)
      ∧ ((15 : ℚ) / 2 =
            (validDurations clearanceExampleRows).sum
              / ((validDurations clearanceExampleRows).length : ℚ)
          ∧ (15 : ℚ) / 2 ≠ 0) := by
  have hev : calculate_avg_clearance_minutes clearanceExampleRows = some ((15 : ℚ) / 2) := by
    norm_num [calculate_avg_clearance_minutes, clearanceExampleRows, durationsOf, validDurations,
      rowDuration, MIN_CLEARANCE_MINUTES, MAX_CLEARANCE_MINUTES, List.filterMap, List.filter]
    all_goals simp
  exact ⟨hev, (avg_clearance_characterization clearanceExampleRows).2 ((15 : ℚ) / 2) hev⟩

/-- Claim C1 (code bug): a crash WITH a mile marker whose (road, county) key
matches roadwork but with no anchor within the 2-mile tolerance is still
counted: the code returns 1 on the spec's example "roadwork at marker 20 →
not counted". The claim and the function's own docstring ("If mile markers
are available, the crash is within 2 miles of the roadwork location") require
0. The cause is the Python `for ... else`: the else branch fires exactly when
the scan ends without break, so the anchor scan can never reject a crash —
as the second conjunct records, scanning the distant anchor equals scanning
no anchors at all. -/
theorem construction_zone_counts_crash_outside_tolerance :
    calculate_construction_zone_crashes [czCrash] [czFarRoadwork] = 1
      ∧ scanAnchors 10 [some 20] = scanAnchors 10 [] := by
  have hfar : ¬(|(10 : ℚ) - 20| ≤ 2) := by norm_num
  constructor
  · simp [calculate_construction_zone_crashes, czCrash, czFarRoadwork, roadworkIndex,
      addAnchor, lookupKey, crashContribution, scanAnchors, List.foldl, hfar]
  · simp [scanAnchors, hfar]

/-- Truthiness characterization used by the C10 proof. -/
theorem pyTruthyNum_iff (o : Option ℚ) :
    pyTruthyNum o = true ↔ ∃ x : ℚ, o = some x ∧ x ≠ 0 := by
  cases o with
  | none => simp [pyTruthyNum]
  | some x => simp [pyTruthyNum]

/-- Claim C10: the ingestion pipeline keeps an upstream record iff its start
latitude and start longitude are both present AND both nonzero — the
truthiness check drops 0 and 0.0 exactly like missing values, so a record at
(0, 0), on the equator, or on the prime meridian never enters the store. -/
theorem api_drops_falsy_coordinates :
    ∀ (events : List ApiEvent) (e : ApiEvent),
      e ∈ get_api_response events ↔
        e ∈ events
          ∧ (∃ x : ℚ, (locGet e).latitude = some x ∧ x ≠ 0)
          ∧ (∃ y : ℚ, (locGet e).longitude = some y ∧ y ≠ 0) := by
  intro events e
  simp only [get_api_response, List.mem_filter, apiKeeps, Bool.and_eq_true,
    pyTruthyNum_iff, and_assoc]

/-- Witness for claim C10: of three records — (0,0), equator, and a normal
point — only the normal point survives, and the theorem instantiated at the
surviving record holds. -/
theorem api_drops_falsy_coordinates_witness :
    get_api_response [apiZeroZero, apiEquator, apiKept] = [apiKept]
      ∧ (apiKept ∈ get_api_response [apiZeroZero, apiEquator, apiKept] ↔
          apiKept ∈ [apiZeroZero, apiEquator, apiKept]
            ∧ (∃ x : ℚ, (locGet apiKept).latitude = some x ∧ x ≠ 0)
            ∧ (∃ y : ℚ, (locGet apiKept).longitude = some y ∧ y ≠ 0)) :=
  ⟨by decide, api_drops_falsy_coordinates [apiZeroZero, apiEquator, apiKept] apiKept⟩

/-- Squared sine of a half difference is symmetric in its endpoints. -/
theorem sin_half_sub_sq_symm (x y : ℝ) :
    Real.sin ((x - y) / 2) ^ 2 = Real.sin ((y - x) / 2) ^ 2 := by
  rw [show (x - y) / 2 = -((y - x) / 2) by ring, Real.sin_neg]
  ring

/-- The haversine intermediate is symmetric under swapping the two points. -/
theorem havArg_symm (a1 o1 a2 o2 : ℝ) :
    Real.sin ((a2 - a1) / 2) ^ 2 + Real.cos a1 * Real.cos a2 * Real.sin ((o2 - o1) / 2) ^ 2
      = Real.sin ((a1 - a2) / 2) ^ 2
        + Real.cos a2 * Real.cos a1 * Real.sin ((o1 - o2) / 2) ^ 2 := by
  rw [sin_half_sub_sq_symm a2 a1, sin_half_sub_sq_symm o2 o1]
  ring

/-- Claim C8: both haversine implementations are exactly symmetric in their two
coordinate points and return exactly zero on identical points. -/
theorem haversine_symmetric_and_zero_on_diagonal :
    ∀ lat1 lon1 lat2 lon2 : ℝ,
      haversine_distance lat1 lon1 lat2 lon2 = haversine_distance lat2 lon2 lat1 lon1
        ∧ haversine_distance lat1 lon1 lat1 lon1 = 0
        ∧ haversine lon1 lat1 lon2 lat2 = haversine lon2 lat2 lon1 lat1
        ∧ haversine lon1 lat1 lon1 lat1 = 0 := by
  intro lat1 lon1 lat2 lon2
  refine ⟨?_, ?_, ?_, ?_⟩
  · simp only [haversine_distance]
    rw [havArg_symm (radians lat1) (radians lon1) (radians lat2) (radians lon2)]
  · simp [haversine_distance]
  · simp only [haversine]
    rw [havArg_symm (radians lat1) (radians lon1) (radians lat2) (radians lon2)]
  · simp [haversine]

/-- Start-date guard characterization. -/
theorem startDateGuard_iff (o : Option Ts) (r : EventRow) :
    startDateGuard o r = true ↔ ∀ d : Ts, o = some d → d.day ≤ r.start_time.day := by
  cases o <;> simp [startDateGuard]

/-- End-date guard characterization. -/
theorem endDateGuard_iff (o : Option Ts) (r : EventRow) :
    endDateGuard o r = true ↔ ∀ d : Ts, o = some d → r.start_time.day ≤ d.day := by
  cases o <;> simp [endDateGuard]

/-- Membership filter characterization: an omitted list, an empty list, or a
list containing the "All" sentinel never constrains; otherwise the column must
be present and belong to the list. -/
theorem memberFilter_iff (f : Option (List String)) (v : Option String) :
    memberFilter f v = true ↔
      ∀ vs : List String, f = some vs → vs ≠ [] → "All" ∉ vs →
        ∃ s, v = some s ∧ s ∈ vs := by
  constructor
  · intro h vs hf hne hall
    subst hf
    simp only [memberFilter] at h
    rw [if_neg (by push_neg; exact ⟨hne, hall⟩)] at h
    cases v with
    | none => exact absurd h (by simp)
    | some s => exact ⟨s, rfl, by simpa using h⟩
  · intro h
    cases f with
    | none => simp [memberFilter]
    | some vs =>
      simp only [memberFilter]
      by_cases hs : vs = [] ∨ "All" ∈ vs
      · rw [if_pos hs]
      · rw [if_neg hs]
        push_neg at hs
        obtain ⟨s, hv, hmem⟩ := h vs rfl hs.1 hs.2
        rw [hv]
        simpa using hmem

/-- Active-only guard characterization. -/
theorem activeGuard_iff (b : Bool) (v : Option ℤ) :
    activeGuard b v = true ↔ (b = true → v = some 1) := by
  cases b
  · simp [activeGuard]
  · cases v <;> simp [activeGuard]

/-- The WHERE clause as a conjunction of the claim's conditions. -/
theorem matchesFilters_iff (q : EventQuery) (r : EventRow) :
    matchesFilters q r = true ↔
      r.start_latitude ≠ none ∧ r.start_longitude ≠ none
        ∧ (∀ d : Ts, q.start_date = some d → d.day ≤ r.start_time.day)
        ∧ (∀ d : Ts, q.end_date = some d → r.start_time.day ≤ d.day)
        ∧ (∀ vs : List String, q.counties = some vs → vs ≠ [] → "All" ∉ vs →
            ∃ s, r.county = some s ∧ s ∈ vs)
        ∧ (∀ vs : List String, q.categories = some vs → vs ≠ [] → "All" ∉ vs →
            ∃ s, r.category = some s ∧ s ∈ vs)
        ∧ (∀ vs : List String, q.severities = some vs → vs ≠ [] → "All" ∉ vs →
            ∃ s, r.severity = some s ∧ s ∈ vs)
        ∧ (q.active_only = true → r.active = some 1) := by
  simp only [matchesFilters, Bool.and_eq_true, startDateGuard_iff, endDateGuard_iff,
    memberFilter_iff, activeGuard_iff, Option.isSome_iff_ne_none]
  tauto

/-- Claim C5: query_events returns exactly the stored records satisfying the
conjunction of every supplied filter — inclusive day-granularity date range on
start time, county/category/severity membership, active flag — where an
omitted filter, an empty list, or a list containing "All" imposes no
constraint, and records with a null start coordinate are always excluded. -/
theorem query_filters_conjunction :
    ∀ (db : List EventRow) (q : EventQuery) (r : EventRow),
      r ∈ query_events db q ↔
        r ∈ db
          ∧ (r.start_latitude ≠ none ∧ r.start_longitude ≠ none
              ∧ (∀ d : Ts, q.start_date = some d → d.day ≤ r.start_time.day)
              ∧ (∀ d : Ts, q.end_date = some d → r.start_time.day ≤ d.day)
              ∧ (∀ vs : List String, q.counties = some vs → vs ≠ [] → "All" ∉ vs →
                  ∃ s, r.county = some s ∧ s ∈ vs)
              ∧ (∀ vs : List String, q.categories = some vs → vs ≠ [] → "All" ∉ vs →
                  ∃ s, r.category = some s ∧ s ∈ vs)
              ∧ (∀ vs : List String, q.severities = some vs → vs ≠ [] → "All" ∉ vs →
                  ∃ s, r.severity = some s ∧ s ∈ vs)
              ∧ (q.active_only = true → r.active = some 1)) := by
  intro db q r
  rw [query_events, (List.perm_insertionSort rowAfter (db.filter (matchesFilters q))).mem_iff,
    List.mem_filter, matchesFilters_iff]

/-- Witness for claim C5: with county {Jefferson} and severity {Major}, only
the Major Jefferson row of two stored rows comes back, and the theorem
instantiated at that row holds. -/
theorem query_filters_conjunction_witness :
    query_events [rowA, rowB] queryCS = [rowA]
      ∧ rowA ∈ query_events [rowA, rowB] queryCS := by
  constructor
  · decide
  · exact (query_filters_conjunction [rowA, rowB] queryCS rowA).mpr
      (by refine ⟨?_, ?_, ?_, ?_, ?_, ?_, ?_, ?_, ?_⟩ <;> simp [queryCS, rowA])

/-- In a list whose mapped identities are nodup, at most one element carries
any given identity. -/
theorem countP_id_le_one (b : ℤ) :
    ∀ l : List EventRow, (l.map EventRow.event_id).Nodup →
      l.countP (fun x => decide (x.event_id = b)) ≤ 1 := by
  intro l
  induction l with
  | nil => simp
  | cons x xs ih =>
    intro hnd
    rw [List.map_cons, List.nodup_cons] at hnd
    obtain ⟨hx, hxs⟩ := hnd
    by_cases hfx : x.event_id = b
    · rw [List.countP_cons_of_pos _ _ (by simpa using hfx)]
      have hzero : xs.countP (fun y => decide (y.event_id = b)) = 0 := by
        rw [List.countP_eq_zero]
        intro y hy
        simp only [decide_eq_true_eq]
        intro hfy
        exact hx (by rw [hfx, ← hfy]; exact List.mem_map_of_mem EventRow.event_id hy)
      simp [hzero]
    · rw [List.countP_cons_of_neg _ _ (by simpa using hfx)]
      exact ih hxs

/-- Claim C6: after upserting a record, querying with filters the record
satisfies returns exactly one row equal to it field-for-field; re-upserting an
identity already present leaves the total record count unchanged; and the
store never holds two rows with the upserted identity. The upsert is total (a
plain function), so a duplicate identity can never raise. -/
theorem upsert_round_trip :
    ∀ (db : List EventRow) (q : EventQuery) (r : EventRow),
      (matchesFilters q r = true →
        (query_events (upsert_events db [r]).1 q).countP (fun x => decide (x = r)) = 1)
      ∧ ((db.map EventRow.event_id).Nodup →
          (∃ x ∈ db, x.event_id = r.event_id) →
          (upsert_events db [r]).1.length = db.length)
      ∧ (upsert_events db [r]).1.countP (fun x => decide (x.event_id = r.event_id)) = 1 := by
  intro db q r
  have hup : (upsert_events db [r]).1 = upsertOne db r := by
    simp [upsert_events]
  have hg0 : (db.filter (fun x => decide (x.event_id ≠ r.event_id))).countP
      (fun x => decide (x.event_id = r.event_id)) = 0 := by
    rw [List.countP_eq_zero]
    intro x hx
    rw [List.mem_filter] at hx
    simp only [decide_eq_true_eq]
    simpa using hx.2
  refine ⟨?_, ?_, ?_⟩
  · intro hmatch
    rw [hup, query_events, (List.perm_insertionSort rowAfter _).countP_eq,
      List.countP_filter, upsertOne, List.countP_append]
    have h0 : (db.filter (fun x => decide (x.event_id ≠ r.event_id))).countP
        (fun x => decide (x = r) && matchesFilters q x) = 0 := by
      rw [List.countP_eq_zero]
      intro x hx
      rw [List.mem_filter] at hx
      simp only [Bool.and_eq_true, decide_eq_true_eq, not_and]
      intro hxr
      exact absurd (show x.event_id = r.event_id by rw [hxr]) (by simpa using hx.2)
    rw [h0, List.countP_singleton]
    simp [hmatch]
  · intro hnd hex
    rw [hup, upsertOne, List.length_append]
    have hsplit := List.length_eq_countP_add_countP
      (p := fun x : EventRow => decide (x.event_id = r.event_id)) (l := db)
    have hcompl : db.countP (fun x => ¬(decide (x.event_id = r.event_id) = true))
        = db.countP (fun x => decide (x.event_id ≠ r.event_id)) := by
      apply List.countP_congr
      intro x _
      simp
    have hcnt1 : db.countP (fun x => decide (x.event_id = r.event_id)) = 1 := by
      have hle := countP_id_le_one r.event_id db hnd
      have hge : 0 < db.countP (fun x => decide (x.event_id = r.event_id)) := by
        rw [List.countP_pos_iff]
        obtain ⟨x, hxmem, hxe⟩ := hex
        exact ⟨x, hxmem, by simpa using hxe⟩
      omega
    have hflen : (db.filter (fun x => decide (x.event_id ≠ r.event_id))).length
        = db.countP (fun x => decide (x.event_id ≠ r.event_id)) :=
      (List.countP_eq_length_filter _ _).symm
    rw [hflen, ← hcompl]
    simp only [List.length_singleton]
    omega
  · rw [hup, upsertOne, List.countP_append, hg0, List.countP_singleton]
    simp

/-- Witness for claim C6: re-upserting identity 1 with a changed severity into
a store holding identity 1 yields exactly one matching row on an unrestricted
query, an unchanged record count, and a single row with that identity. -/
theorem upsert_round_trip_witness :
    (query_events (upsert_events [rowA] [rowA2]).1 queryAll).countP
        (fun x => decide (x = rowA2)) = 1
      ∧ (upsert_events [rowA] [rowA2]).1.length = 1
      ∧ (upsert_events [rowA] [rowA2]).1.countP
          (fun x => decide (x.event_id = rowA2.event_id)) = 1 := by
  have h := upsert_round_trip [rowA] queryAll rowA2
  exact ⟨h.1 (by decide), (h.2.1 (by decide) (by decide)).trans (by decide), h.2.2⟩

/-- Claim C9: upserting an empty batch returns 0 and leaves the store
untouched — the embedding's early return mirrors the code's `if not events:
return 0`, taken before any connection is opened. -/
theorem upsert_empty_is_noop : ∀ db : List EventRow, upsert_events db [] = (db, 0) := by
  intro db
  simp [upsert_events]

/-- A pair listed by enumFrom has its second component in the list. -/
theorem mem_enumFrom_mem {α : Type} :
    ∀ (l : List α) (k : Nat) (p : Nat × α), p ∈ l.enumFrom k → p.2 ∈ l := by
  intro l
  induction l with
  | nil =>
    intro k p h
    cases h
  | cons x xs ih =>
    intro k p h
    rw [List.enumFrom_cons] at h
    rcases List.mem_cons.mp h with h | h
    · rw [h]
      exact List.mem_cons_self x xs
    · exact List.mem_cons_of_mem x (ih (k + 1) p h)

/-- On duplicate-free candidate lists the stateful absorption scan is a filter:
it absorbs exactly the unassigned candidates near the seed, and the final
assigned set is the initial one united with the absorbed ones. -/
theorem scanAbsorb_eq (near : Nat → Nat → Bool) (i : Nat) :
    ∀ (js : List Nat) (asg : Finset Nat), js.Nodup →
      scanAbsorb near i js asg =
        (js.filter (fun j => decide (j ∉ asg) && near i j),
          asg ∪ (js.filter (fun j => decide (j ∉ asg) && near i j)).toFinset) := by
  intro js
  induction js with
  | nil =>
    intro asg _
    simp [scanAbsorb]
  | cons j rest ih =>
    intro asg hnd
    rw [List.nodup_cons] at hnd
    obtain ⟨hj, hrest⟩ := hnd
    by_cases hmem : j ∈ asg
    · simp only [scanAbsorb, if_pos hmem]
      rw [ih asg hrest, List.filter_cons_of_neg (by simp [hmem])]
    · by_cases hnear : near i j = true
      · simp only [scanAbsorb, if_neg hmem, if_pos hnear]
        rw [ih (insert j asg) hrest]
        have hfil : rest.filter (fun x => decide (x ∉ insert j asg) && near i x)
            = rest.filter (fun x => decide (x ∉ asg) && near i x) := by
          apply List.filter_congr
          intro x hx
          have hxj : x ≠ j := fun h => hj (h ▸ hx)
          simp [Finset.mem_insert, hxj]
        rw [hfil, List.filter_cons_of_pos (by simp [hmem, hnear]), List.toFinset_cons,
          Finset.insert_union, Finset.union_insert]
      · simp only [scanAbsorb, if_neg hmem, if_neg hnear]
        rw [ih asg hrest, List.filter_cons_of_neg (by simp [hmem, hnear])]

/-- Invariant of the clustering loop over the index suffix [a, n) with the
running assigned set asg: every emitted group is seeded at an unassigned index
of the suffix, its flag records the minimum-size test, its absorbed members
are later, in-range, near-the-seed, initially unassigned indices; every
unassigned in-range index lands in some group; and across the trace, groups
are pairwise disjoint while no member of a later group is near an earlier
group's seed from above. -/
theorem clusterLoop_inv (near : Nat → Nat → Bool) (minSize n : Nat) :
    ∀ (k a : Nat) (asg : Finset Nat), a + k = n →
      (∀ g ∈ clusterLoop near minSize n (List.range' a k) asg,
        a ≤ g.2.1 ∧ g.2.1 < n ∧ g.2.1 ∉ asg
          ∧ g.1 = decide (minSize ≤ (g.2.1 :: g.2.2).length)
          ∧ ∀ j ∈ g.2.2, g.2.1 < j ∧ j < n ∧ near g.2.1 j = true ∧ j ∉ asg)
      ∧ (∀ j, a ≤ j → j < n → j ∉ asg →
          ∃ g ∈ clusterLoop near minSize n (List.range' a k) asg, j ∈ g.2.1 :: g.2.2)
      ∧ List.Pairwise
          (fun g g' => ∀ j ∈ g'.2.1 :: g'.2.2,
            j ∉ g.2.1 :: g.2.2 ∧ (g.2.1 < j → near g.2.1 j = false))
          (clusterLoop near minSize n (List.range' a k) asg) := by
  intro k
  induction k with
  | zero =>
    intro a asg ha
    refine ⟨by simp [clusterLoop], ?_, by simp [clusterLoop]⟩
    intro j hja hjn _
    omega
  | succ k ih =>
    intro a asg ha
    rw [List.range'_succ]
    by_cases hmem : a ∈ asg
    · simp only [clusterLoop, if_pos hmem]
      have H := ih (a + 1) asg (by omega)
      refine ⟨?_, ?_, H.2.2⟩
      · intro g hg
        obtain ⟨h1, h2, h3, h4, h5⟩ := H.1 g hg
        exact ⟨by omega, h2, h3, h4, h5⟩
      · intro j hja hjn hjasg
        have hne : j ≠ a := fun h => hjasg (h ▸ hmem)
        exact H.2.1 j (by omega) hjn hjasg
    · simp only [clusterLoop, if_neg hmem]
      have hnk : n - (a + 1) = k := by omega
      rw [hnk]
      have hnd : (List.range' (a + 1) k).Nodup := List.nodup_range' _ _
      rw [scanAbsorb_eq near a (List.range' (a + 1) k) (insert a asg) hnd]
      set F := (List.range' (a + 1) k).filter
        (fun j => decide (j ∉ insert a asg) && near a j) with hF
      simp only
      have hFmem : ∀ j ∈ F, a < j ∧ j < n ∧ near a j = true ∧ j ∉ asg ∧ j ≠ a := by
        intro j hjF
        rw [hF, List.mem_filter, List.mem_range'_1, Bool.and_eq_true, decide_eq_true_eq,
          Finset.mem_insert, not_or] at hjF
        obtain ⟨⟨hlo, hhi⟩, ⟨hna, hnasg⟩, hnear⟩ := hjF
        exact ⟨by omega, by omega, hnear, hnasg, hna⟩
      have hFcomplete : ∀ j, a < j → j < n → j ∉ asg → j ≠ a → near a j = true → j ∈ F := by
        intro j h1 h2 h3 h4 h5
        rw [hF, List.mem_filter, List.mem_range'_1, Bool.and_eq_true, decide_eq_true_eq,
          Finset.mem_insert, not_or]
        exact ⟨⟨by omega, by omega⟩, ⟨h4, h3⟩, h5⟩
      have hsub : asg ⊆ insert a asg ∪ F.toFinset := fun x hx =>
        Finset.mem_union_left _ (Finset.mem_insert_of_mem hx)
      have hmem' : ∀ x, x ∈ insert a asg ∪ F.toFinset ↔ x = a ∨ x ∈ asg ∨ x ∈ F := by
        intro x
        simp [Finset.mem_union, Finset.mem_insert, List.mem_toFinset, or_assoc]
      have H := ih (a + 1) (insert a asg ∪ F.toFinset) (by omega)
      refine ⟨?_, ?_, ?_⟩
      · intro g hg
        rcases List.mem_cons.mp hg with hghead | hgtail
        · subst hghead
          refine ⟨le_refl a, show a < n by omega, hmem, rfl, ?_⟩
          intro j hjF
          obtain ⟨h1, h2, h3, h4, _⟩ := hFmem j hjF
          exact ⟨h1, h2, h3, h4⟩
        · obtain ⟨h1, h2, h3, h4, h5⟩ := H.1 g hgtail
          refine ⟨by omega, h2, fun hc => h3 (hsub hc), h4, ?_⟩
          intro j hj
          obtain ⟨hj1, hj2, hj3, hj4⟩ := h5 j hj
          exact ⟨hj1, hj2, hj3, fun hc => hj4 (hsub hc)⟩
      · intro j hja hjn hjasg
        by_cases hjeq : j = a
        · exact ⟨_, List.mem_cons_self _ _, by rw [hjeq]; exact List.mem_cons_self _ _⟩
        · by_cases hjF : j ∈ F
          · exact ⟨_, List.mem_cons_self _ _, List.mem_cons_of_mem _ hjF⟩
          · have hjasg' : j ∉ insert a asg ∪ F.toFinset := by
              rw [hmem']
              push_neg
              exact ⟨hjeq, hjasg, hjF⟩
            obtain ⟨g, hg, hjg⟩ := H.2.1 j (by omega) hjn hjasg'
            exact ⟨g, List.mem_cons_of_mem _ hg, hjg⟩
      · rw [List.pairwise_cons]
        refine ⟨?_, H.2.2⟩
        intro g' hg' j hjmem
        obtain ⟨h1, h2, h3, h4, h5⟩ := H.1 g' hg'
        have hjnotasg' : j ∉ insert a asg ∪ F.toFinset ∧ j < n := by
          rcases List.mem_cons.mp hjmem with hjs | hjm
          · exact ⟨by rw [hjs]; exact h3, by omega⟩
          · obtain ⟨hj1, hj2, hj3, hj4⟩ := h5 j hjm
            exact ⟨hj4, hj2⟩
        obtain ⟨hjasg', hjn⟩ := hjnotasg'
        rw [hmem'] at hjasg'
        push_neg at hjasg'
        obtain ⟨hja, hjasg, hjF⟩ := hjasg'
        constructor
        · intro hc
          rcases List.mem_cons.mp hc with hc | hc
          · exact hja hc
          · exact hjF hc
        · intro haj
          by_contra hcnear
          have hnear : near a j = true := by
            cases hne : near a j
            · exact absurd hne hcnear
            · rfl
          exact hjF (hFcomplete j haj hjn hjasg hja hnear)

/-- Claim C2: the clustering trace visits indices in input order; each
unassigned index seeds a group; a group member other than the seed is always a
later index near THE SEED (soundness), and conversely no index near an earlier
seed from above ever survives to a later group (completeness: it would have
been absorbed), so absorption happens iff the candidate was still unassigned
and near the seed; the committed flag is exactly the minimum-size test; groups
— committed or not — are pairwise disjoint and jointly cover every index, so
members of failed groups stay assigned and are never reconsidered, and the
seed of a committed cluster is never a member of an earlier cluster. The final
conjunct instantiates the committed output of find_crash_clusters (the
haversine-based proximity relation): every emitted cluster has at least
MIN_CLUSTER_SIZE members. -/
theorem crash_clusters_seed_semantics :
    (∀ (near : Nat → Nat → Bool) (minSize n : Nat),
      (∀ g ∈ clusterTrace near minSize n,
        g.2.1 < n
          ∧ (g.1 = true ↔ minSize ≤ (g.2.1 :: g.2.2).length)
          ∧ ∀ j ∈ g.2.2, g.2.1 < j ∧ j < n ∧ near g.2.1 j = true)
      ∧ (∀ j, j < n → ∃ g ∈ clusterTrace near minSize n, j ∈ g.2.1 :: g.2.2)
      ∧ List.Pairwise
          (fun g g' => ∀ j ∈ g'.2.1 :: g'.2.2,
            j ∉ g.2.1 :: g.2.2 ∧ (g.2.1 < j → near g.2.1 j = false))
          (clusterTrace near minSize n))
    ∧ ∀ (coords : List (ℝ × ℝ)) (radius : ℝ) (c : Nat × List Nat),
        c ∈ find_crash_clusters coords radius → MIN_CLUSTER_SIZE ≤ c.2.length := by
  have hmain : ∀ (near : Nat → Nat → Bool) (minSize n : Nat),
      (∀ g ∈ clusterTrace near minSize n,
        g.2.1 < n
          ∧ (g.1 = true ↔ minSize ≤ (g.2.1 :: g.2.2).length)
          ∧ ∀ j ∈ g.2.2, g.2.1 < j ∧ j < n ∧ near g.2.1 j = true)
      ∧ (∀ j, j < n → ∃ g ∈ clusterTrace near minSize n, j ∈ g.2.1 :: g.2.2)
      ∧ List.Pairwise
          (fun g g' => ∀ j ∈ g'.2.1 :: g'.2.2,
            j ∉ g.2.1 :: g.2.2 ∧ (g.2.1 < j → near g.2.1 j = false))
          (clusterTrace near minSize n) := by
    intro near minSize n
    have H := clusterLoop_inv near minSize n n 0 ∅ (by omega)
    rw [← List.range_eq_range'] at H
    simp only [clusterTrace]
    refine ⟨?_, ?_, H.2.2⟩
    · intro g hg
      obtain ⟨_, h2, _, h4, h5⟩ := H.1 g hg
      refine ⟨h2, by rw [h4]; simp, ?_⟩
      intro j hj
      obtain ⟨hj1, hj2, hj3, _⟩ := h5 j hj
      exact ⟨hj1, hj2, hj3⟩
    · intro j hj
      exact H.2.1 j (Nat.zero_le j) hj (Finset.not_mem_empty j)
  refine ⟨hmain, ?_⟩
  intro coords radius c hc
  simp only [find_crash_clusters, List.enum] at hc
  obtain ⟨p, hp, hpc⟩ := List.mem_map.mp hc
  have hp2 := mem_enumFrom_mem _ 0 p hp
  rw [List.mem_filter] at hp2
  have hflag :=
    ((hmain (havNear coords radius) MIN_CLUSTER_SIZE coords.length).1 p.2 hp2.1).2.1
  have hsize := hflag.mp hp2.2
  rw [← hpc]
  simpa using hsize

/-- Witness for claim C2: with the always-near relation on three indices and
minimum size 3 (the spec's "three identical coordinates form exactly one
cluster of size 3"), the trace is one committed group seeded at 0 absorbing 1
and 2, and the theorem's coverage conjunct instantiated there holds. -/
theorem crash_clusters_seed_semantics_witness :
    clusterTrace (fun _ _ => true) 3 3 = [(true, 0, [1, 2])]
      ∧ ∀ j, j < 3 → ∃ g ∈ clusterTrace (fun _ _ => true) 3 3, j ∈ g.2.1 :: g.2.2 :=
  ⟨by decide, (crash_clusters_seed_semantics.1 (fun _ _ => true) 3 3).2.1⟩
